import Mathlib

/-!
Verification of the chatbot tutorial's glue code.

The tutorial notebook defines two small utilities and one chain step:

* `get_session_history(session_id)`: looks a session id up in the in-memory
  dict `store`, inserting a fresh empty `ChatMessageHistory` when absent,
  and returns the entry under the key.
* `filter_messages(messages, k=10)`: returns `messages[-k:]`, the Python
  slice from index `-k`.
* the composed chain starts with
  `RunnablePassthrough.assign(messages=lambda x: filter_messages(x["messages"]))`,
  which merges the recomputed `"messages"` binding into the input mapping.

We embed these shallowly: Python dicts become association lists with the
first-match lookup and in-place update of dict semantics, Python lists
become `List`, Python ints become `Int`, and the one fallible operation
(dict subscription) returns an `Option`.
-/

/-- A chat message: role tag plus text content, mirroring the message
classes used by the notebook (`HumanMessage`, `AIMessage`, system). -/
inductive BaseMessage where
  | human (content : String)
  | ai (content : String)
  | system (content : String)
deriving DecidableEq

/-- `ChatMessageHistory`: an ordered list of messages; `ChatMessageHistory()`
constructs it with the empty list. -/
structure ChatMessageHistory where
  messages : List BaseMessage := []
deriving DecidableEq

/-- Python slice `l[s:]` for an arbitrary integer start index `s`:
a negative start counts from the end and is clamped at `0`; a start past
the end yields the empty list. Slicing is total, it never raises. -/
def pySliceFrom {α : Type} (l : List α) (s : Int) : List α :=
  if s < 0 then l.drop (l.length + s).toNat else l.drop s.toNat

/-- `def filter_messages(messages, k=10): return messages[-k:]`
(callers that omit `k` pass the default `10` explicitly here). -/
def filter_messages (messages : List BaseMessage) (k : Int) :
    List BaseMessage :=
  pySliceFrom messages (-k)

/-- The trailing `k` elements of a list (all of it when `k` exceeds the
length): the spec's phrase "the trailing k elements of the input sequence,
or the whole sequence if shorter than k". -/
def lastN {α : Type} (l : List α) (k : Nat) : List α :=
  l.drop (l.length - k)

/-- First-match lookup on an association list: Python dict subscription
`d[k]`, returning `none` where Python would raise `KeyError`. -/
def dictLookup {α : Type} (d : List (String × α)) (k : String) : Option α :=
  match d with
  | [] => none
  | (k', v) :: rest => if k' = k then some v else dictLookup rest k

/-- Python dict assignment `d[k] = v`: replaces the value in place when the
key is present, appends a new entry at the end otherwise. -/
def dictInsert {α : Type} (d : List (String × α)) (k : String) (v : α) :
    List (String × α) :=
  match d with
  | [] => [(k, v)]
  | (k', v') :: rest =>
      if k' = k then (k, v) :: rest else (k', v') :: dictInsert rest k v

/-- The notebook's in-memory `store`: a dict from session id to history. -/
abbrev Store := List (String × ChatMessageHistory)

/-- ```
def get_session_history(session_id: str) -> BaseChatMessageHistory:
    if session_id not in store:
        store[session_id] = ChatMessageHistory()
    return store[session_id]
```
State-passing embedding: takes the current `store`, returns the looked-up
history (`Option`, since dict subscription is fallible) and the new store. -/
def get_session_history (store : Store) (session_id : String) :
    Option ChatMessageHistory × Store :=
  let store' :=
    if (dictLookup store session_id).isSome then store
    else dictInsert store session_id ⟨[]⟩
  (dictLookup store' session_id, store')

/-- Runs a finite sequence of `get_session_history` calls starting from the
empty store (the notebook's `store = {}`), threading the store through. -/
def runCalls (session_ids : List String) : Store :=
  session_ids.foldl (fun st sid => (get_session_history st sid).2) []

/-- A value in the chain's input mapping: either a message list (under
`"messages"`) or a string (such as the `"language"` parameter). -/
inductive ChainValue where
  | msgs (v : List BaseMessage)
  | str (v : String)
deriving DecidableEq

/-- The chain's input mapping, e.g. `{"messages": [...], "language": "English"}`. -/
abbrev ChainDict := List (String × ChainValue)

/-- Modelled from the spec: the notebook's first chain step
`RunnablePassthrough.assign(messages=lambda x: filter_messages(x["messages"]))`.
`RunnablePassthrough.assign` is supplied by the external library: it passes
the input mapping through and merges in the recomputed keys, here rebinding
`"messages"` to `filter_messages(x["messages"])` (with the default `k=10`).
Returns `none` where the lambda's subscription `x["messages"]` would raise
or where the value under `"messages"` is not a message list. -/
def assign_filter_messages (x : ChainDict) : Option ChainDict :=
  match dictLookup x "messages" with
  | some (ChainValue.msgs ms) =>
      some (dictInsert x "messages" (ChainValue.msgs (filter_messages ms 10)))
  | _ => none

/-! ### Lemmas about the dict model -/

theorem dictLookup_insert_self {α : Type} (d : List (String × α)) (k : String)
    (v : α) : dictLookup (dictInsert d k v) k = some v := by
  induction d with
  | nil => simp [dictInsert, dictLookup]
  | cons p rest ih =>
      obtain ⟨k', v'⟩ := p
      by_cases h : k' = k <;> simp [dictInsert, dictLookup, h, ih]

theorem dictLookup_insert_ne {α : Type} (d : List (String × α)) (k s : String)
    (v : α) (hne : s ≠ k) :
    dictLookup (dictInsert d k v) s = dictLookup d s := by
  have hks : k ≠ s := fun h => hne h.symm
  induction d with
  | nil => simp [dictInsert, dictLookup, hks]
  | cons p rest ih =>
      obtain ⟨k', v'⟩ := p
      by_cases h : k' = k
      · subst h
        simp [dictInsert, dictLookup, hks]
      · by_cases h2 : k' = s <;> simp [dictInsert, dictLookup, h, h2, hne, ih]

/-! ### Claim theorems -/

/-- C6: `filter_messages(messages, 0)` returns the entire input list, since
the slice `messages[-0:]` is `messages[0:]`. -/
theorem filter_messages_zero (messages : List BaseMessage) :
    filter_messages messages 0 = messages := by
  simp [filter_messages, pySliceFrom]

/-- Counterexample to C1 as stated: at the non-negative integer `k = 0` and
a one-element list, `filter_messages` does not return the trailing `0`
elements (the empty list) although the list has at least `0` elements. -/
theorem filter_messages_zero_not_lastN :
    filter_messages [BaseMessage.human "hi"] 0 ≠
      lastN [BaseMessage.human "hi"] 0 := by
  simp [filter_messages, pySliceFrom, lastN]

/-- C1 (amended to positive `k`): for every message list and every positive
integer `k`, `filter_messages(messages, k)` is exactly the trailing `k`
elements of the input, which is the whole list when the list has fewer than
`k` elements. -/
theorem filter_messages_eq_lastN (messages : List BaseMessage) (k : Int)
    (hk : 1 ≤ k) : filter_messages messages k = lastN messages k.toNat := by
  have hneg : -k < 0 := by omega
  simp only [filter_messages, pySliceFrom, lastN, if_pos hneg]
  congr 1
  omega

/-- Witness for `filter_messages_eq_lastN` at a concrete input. -/
theorem filter_messages_eq_lastN_witness :
    filter_messages [BaseMessage.human "a", BaseMessage.ai "b",
        BaseMessage.human "c"] 2 =
      lastN [BaseMessage.human "a", BaseMessage.ai "b",
        BaseMessage.human "c"] (Int.toNat 2) :=
  filter_messages_eq_lastN _ 2 (by decide)

/-! ### Shared helper lemmas about `get_session_history` -/

theorem dictLookup_get_snd_ne (store : Store) (s1 s2 : String)
    (hne : s2 ≠ s1) :
    dictLookup (get_session_history store s1).2 s2 = dictLookup store s2 := by
  cases hopt : dictLookup store s1 with
  | none => simp [get_session_history, hopt, dictLookup_insert_ne _ _ _ _ hne]
  | some h => simp [get_session_history, hopt]

theorem isSome_dictLookup_get_snd (st : Store) (sid s : String) :
    (dictLookup (get_session_history st sid).2 s).isSome = true ↔
      (dictLookup st s).isSome = true ∨ s = sid := by
  by_cases hs : s = sid
  · subst hs
    cases hopt : dictLookup st s with
    | none => simp [get_session_history, hopt, dictLookup_insert_self]
    | some h => simp [get_session_history, hopt]
  · rw [dictLookup_get_snd_ne st sid s hs]
    simp [hs]

theorem isSome_dictLookup_foldl_calls (sids : List String) (st : Store)
    (s : String) :
    (dictLookup
        (sids.foldl (fun st sid => (get_session_history st sid).2) st)
        s).isSome = true ↔
      (dictLookup st s).isSome = true ∨ s ∈ sids := by
  induction sids generalizing st with
  | nil => simp
  | cons sid rest ih =>
      simp only [List.foldl_cons, ih, isSome_dictLookup_get_snd,
        List.mem_cons]
      tauto

/-- C2: `get_session_history` implements get-or-insert-default on the
store: if the session id is absent it inserts a fresh empty
`ChatMessageHistory` under that key and returns it; if present, it returns
the existing history and leaves the store unchanged. -/
theorem get_session_history_get_or_insert (store : Store)
    (session_id : String) :
    (dictLookup store session_id = none →
      get_session_history store session_id =
        (some ⟨[]⟩, dictInsert store session_id ⟨[]⟩)) ∧
    (∀ h, dictLookup store session_id = some h →
      get_session_history store session_id = (some h, store)) := by
  constructor
  · intro hnone
    simp [get_session_history, hnone, dictLookup_insert_self]
  · intro h hsome
    simp [get_session_history, hsome]

/-- Witness for `get_session_history_get_or_insert` on the empty store. -/
theorem get_session_history_get_or_insert_witness :
    get_session_history [] "abc2" =
      (some ⟨[]⟩, dictInsert [] "abc2" ⟨[]⟩) :=
  (get_session_history_get_or_insert [] "abc2").1 rfl

/-- C3: both utilities are total. `get_session_history` always returns a
value (the one fallible operation, the dict subscription `store[session_id]`,
always succeeds because the key was just inserted if missing), and
`filter_messages` always returns a list (Python slicing is total for every
integer `k`). -/
theorem utilities_total (store : Store) (session_id : String)
    (messages : List BaseMessage) (k : Int) :
    (∃ h, (get_session_history store session_id).1 = some h) ∧
    (∃ r, filter_messages messages k = r) := by
  constructor
  · cases hopt : dictLookup store session_id with
    | none =>
        exact ⟨⟨[]⟩,
          by simp [get_session_history, hopt, dictLookup_insert_self]⟩
    | some h => exact ⟨h, by simp [get_session_history, hopt]⟩
  · exact ⟨_, rfl⟩

/-- C4: sessions are independent: a `get_session_history` call for `s1`
leaves the store's entry for every other key `s2` unchanged. -/
theorem get_session_history_frame (store : Store) (s1 s2 : String)
    (hne : s2 ≠ s1) :
    dictLookup (get_session_history store s1).2 s2 = dictLookup store s2 :=
  dictLookup_get_snd_ne store s1 s2 hne

/-- Witness for `get_session_history_frame` at distinct session ids. -/
theorem get_session_history_frame_witness :
    dictLookup (get_session_history [("abc2", ⟨[]⟩)] "abc3").2 "abc2" =
      dictLookup [("abc2", ⟨[]⟩)] "abc2" :=
  get_session_history_frame [("abc2", ⟨[]⟩)] "abc3" "abc2" (by decide)

/-- C5: starting from the empty store, after any finite sequence of
`get_session_history` calls the store's key set is exactly the set of
session ids queried so far, and every stored value is a
`ChatMessageHistory` (a record of some message list). -/
theorem runCalls_store_invariant (sids : List String) (s : String) :
    ((dictLookup (runCalls sids) s).isSome = true ↔ s ∈ sids) ∧
    (∀ p ∈ runCalls sids, ∃ ms, p.2 = ChatMessageHistory.mk ms) := by
  constructor
  · have h := isSome_dictLookup_foldl_calls sids [] s
    simpa [runCalls, dictLookup] using h
  · intro p _
    exact ⟨p.2.messages, rfl⟩

/-- Witness for `runCalls_store_invariant` after one call. -/
theorem runCalls_store_invariant_witness :
    ∃ ms, (("abc2", (⟨[]⟩ : ChatMessageHistory)) :
        String × ChatMessageHistory).2 = ChatMessageHistory.mk ms :=
  (runCalls_store_invariant ["abc2"] "abc2").2 ("abc2", ⟨[]⟩) (by decide)

/-- C7: `get_session_history` is idempotent and history-stable: a second
consecutive call with the same session id returns exactly the history the
first call established and leaves the store as the first call left it; and
once a session id maps to a history, a call with any session id leaves that
mapping intact. -/
theorem get_session_history_idempotent (store : Store) (sid : String) :
    (get_session_history (get_session_history store sid).2 sid =
        ((get_session_history store sid).1,
          (get_session_history store sid).2)) ∧
    (∀ h sid2, dictLookup store sid = some h →
        dictLookup (get_session_history store sid2).2 sid = some h) := by
  constructor
  · cases hopt : dictLookup store sid with
    | none => simp [get_session_history, hopt, dictLookup_insert_self]
    | some h => simp [get_session_history, hopt]
  · intro h sid2 hsome
    by_cases he : sid = sid2
    · subst he
      simp [get_session_history, hsome]
    · rw [dictLookup_get_snd_ne store sid2 sid he]
      exact hsome

/-- Witness for `get_session_history_idempotent`: the entry for `"a"`
survives a call for `"b"`. -/
theorem get_session_history_idempotent_witness :
    dictLookup (get_session_history [("a", ⟨[]⟩)] "b").2 "a" = some ⟨[]⟩ :=
  (get_session_history_idempotent [("a", ⟨[]⟩)] "a").2 ⟨[]⟩ "b" (by decide)

/-- C8: the truncation step of the composed chain modifies only the
`"messages"` key: on an input mapping whose `"messages"` key holds a
message list, it succeeds, rebinds `"messages"` to `filter_messages`
of that list (default `k = 10`), and leaves every other key bound to its
original value. -/
theorem assign_filter_messages_frame (x : ChainDict)
    (ms : List BaseMessage)
    (hm : dictLookup x "messages" = some (ChainValue.msgs ms)) :
    ∃ y, assign_filter_messages x = some y ∧
      dictLookup y "messages" =
        some (ChainValue.msgs (filter_messages ms 10)) ∧
      ∀ key, key ≠ "messages" → dictLookup y key = dictLookup x key := by
  refine ⟨dictInsert x "messages" (ChainValue.msgs (filter_messages ms 10)),
    ?_, ?_, ?_⟩
  · simp [assign_filter_messages, hm]
  · exact dictLookup_insert_self _ _ _
  · intro key hk
    exact dictLookup_insert_ne _ _ _ _ hk

/-- Witness for `assign_filter_messages_frame` on a two-key mapping. -/
theorem assign_filter_messages_frame_witness :
    ∃ y, assign_filter_messages
        [("messages", ChainValue.msgs [BaseMessage.human "hi"]),
          ("language", ChainValue.str "English")] = some y ∧
      dictLookup y "messages" =
        some (ChainValue.msgs (filter_messages [BaseMessage.human "hi"] 10)) ∧
      ∀ key, key ≠ "messages" →
        dictLookup y key =
          dictLookup
            [("messages", ChainValue.msgs [BaseMessage.human "hi"]),
              ("language", ChainValue.str "English")] key :=
  assign_filter_messages_frame _ [BaseMessage.human "hi"] (by decide)
